import Mathlib

/-!
Shallow embedding of `src/main.rs` of the game-of-life repository.

The engine consists of:
* `Cell` with its rule function `process_next_state` (B3/S23);
* `Grid` holding two flat buffers `cells` / `next_step_cells`;
* `Grid.get_randomized_grid` seeding a PCG32 generator with `(1, 1)` and
  drawing one `u32` per cell index, alive iff
  `randomize::f32_half_open_right(u) > 0.9`;
* `Grid.draw_cell` zipping cells with 4-byte chunks of the frame;
* `Grid.update_cells` computing the next generation with flat-index
  neighbour lookups `cells.get((id + off) as usize).unwrap_or(dead)`.

Machine integers are modelled as `Nat`/`Int` with explicit `% 2 ^ 64`
(resp. `% 2 ^ 32`) where the Rust code computes with `u64`/`u32`.  The
`i32` quantities (`id` and its eight neighbour offsets) stay within
`i32` range for the fixed 500 × 300 grid, so plain `Int` models them
exactly; the Rust cast `as usize` of an `i32` is sign extension, i.e.
Euclidean remainder modulo `2 ^ 64`, modelled by `castUsize`.
-/

/-- Rust constant `WIDTH : i32 = 500` (always used non-negatively). -/
def WIDTH : Nat := 500

/-- Rust constant `HEIGHT : i32 = 300` (always used non-negatively). -/
def HEIGHT : Nat := 300

/-- Rust struct `Cell { is_alive: bool }`. -/
structure Cell where
  is_alive : Bool
deriving Repr, DecidableEq

/-- Rust `Cell::dead_cell()`. -/
def Cell.dead_cell : Cell := { is_alive := false }

/-- Rust `Cell::process_next_state(&self, neighbours: [bool; 8])`:
`n_count` is the number of `true` entries of `neighbours`; an alive cell
stays alive iff `(2..=3).contains(&n_count)`, a dead cell comes alive iff
`n_count == 3`.  The fixed-size array `[bool; 8]` is modelled as a
`List Bool` (all call sites pass eight entries). -/
def Cell.process_next_state (c : Cell) (neighbours : List Bool) : Cell :=
  let n_count := (neighbours.filter (fun b => b)).length
  { is_alive :=
      match c.is_alive with
      | true => decide (2 ≤ n_count ∧ n_count ≤ 3)
      | false => n_count == 3 }

/-- Rust struct `Grid { cells: Vec<Cell>, next_step_cells: Vec<Cell> }`. -/
structure Grid where
  cells : List Cell
  next_step_cells : List Cell
deriving Repr, DecidableEq

/-! ### The pseudo-random generator

`Grid::get_randomized_grid` uses `randomize::PCG32` from the external
`randomize` crate, whose source is not part of this repository.
Modelled from the spec: the spec requires "a deterministic, reproducible
pseudo-random sequence" from a "linear-congruential generator with 32+
bits of state"; the PCG32 algorithm (XSH-RR 64/32) below is the fixed,
documented algorithm of that family used by the crate: a 64-bit LCG core
`state * PCG_MUL + inc  (mod 2 ^ 64)` with xorshift-rotate output, seeded
from the pair `(1, 1)` by forcing the increment odd and stepping the core
around adding the seed. -/

/-- The 64-bit LCG multiplier of PCG32. -/
def PCG_MUL : Nat := 6364136223846793005

/-- PCG32 generator state: a 64-bit `state` and a 64-bit odd `inc`. -/
structure PCG32 where
  state : Nat
  inc : Nat
deriving Repr, DecidableEq

/-- One step of the 64-bit LCG core, wrapping modulo `2 ^ 64`. -/
def pcg_core_state64 (state inc : Nat) : Nat :=
  (state * PCG_MUL + inc) % 2 ^ 64

/-- Seeding from the pair `(seed, inc)` (the code uses `(1_u64, 1_u64)`):
force the increment odd, step the core from 0, add the seed, step again. -/
def pcg32_seed (seed inc : Nat) : PCG32 :=
  let inc2 := ((inc <<< 1) ||| 1) % 2 ^ 64
  let st0 := pcg_core_state64 0 inc2
  let st1 := (st0 + seed) % 2 ^ 64
  { state := pcg_core_state64 st1 inc2, inc := inc2 }

/-- The XSH-RR output function: xorshift the 64-bit state down to 32 bits,
then rotate right by the top five bits of the state. -/
def pcg_xsh_rr (s : Nat) : Nat :=
  let xorshifted := (((s >>> 18) ^^^ s) >>> 27) % 2 ^ 32
  let rot := s >>> 59
  ((xorshifted >>> rot) ||| (xorshifted <<< ((32 - rot) % 32))) % 2 ^ 32

/-- Rust `rng.next_u32()`: output from the current state, then advance the
LCG core. -/
def PCG32.next_u32_pair (g : PCG32) : Nat × PCG32 :=
  (pcg_xsh_rr g.state, { g with state := pcg_core_state64 g.state g.inc })

/-- The sequence of generator states threaded through the `map` in
`get_randomized_grid`: `rng_states 0` is the seeded generator
`(1_u64, 1_u64).into()`, and each draw advances it once. -/
def rng_states : Nat → PCG32
  | 0 => pcg32_seed 1 1
  | n + 1 => ((rng_states n).next_u32_pair).2

/-- The `i`-th value drawn by `rng.next_u32()` during initialization. -/
def next_u32_draw (i : Nat) : Nat := ((rng_states i).next_u32_pair).1

/-- Rust `randomize::f32_half_open_right(u)`: builds the `f32` with bit
pattern `(u >> 9) | 0x3f80_0000` — exactly `1 + (u >> 9) / 2 ^ 23`, a
point of `[1, 2)` — and subtracts `1.0`.  Both the construction and the
subtraction are exact in `f32` (the mantissa `u >> 9` has at most 23
bits), so the function returns exactly the rational `(u >> 9) / 2 ^ 23`
and is modelled as that rational. -/
def f32_half_open_right (u : Nat) : ℚ :=
  ((u >>> 9 : Nat) : ℚ) / 2 ^ 23

/-- The alive test `randomize::f32_half_open_right(rng.next_u32()) > 0.9`
of `get_randomized_grid`, for the `u32` value `u`.  The Rust literal
`0.9_f32` rounds to `15099494 / 2 ^ 24`, and no value `(u >> 9) / 2 ^ 23`
lies between that and `9 / 10` (both comparisons hold iff
`u >> 9 ≥ 7549748`), so comparing with the exact rational `9 / 10` models
the `f32` comparison exactly. -/
def alive_draw (u : Nat) : Bool :=
  decide (f32_half_open_right u > 9 / 10)

/-- Rust `Grid::get_randomized_grid()`: seed PCG32 from `(1, 1)`, map each
index of `0..HEIGHT*WIDTH` to a cell whose `is_alive` is the alive test on
the next drawn `u32` (the `i`-th cell consumes the `i`-th draw, in list
order), and fill `next_step_cells` with `HEIGHT*WIDTH` dead cells. -/
def Grid.get_randomized_grid : Grid :=
  let cells : List Cell :=
    (List.range (HEIGHT * WIDTH)).map
      (fun i => { is_alive := alive_draw (next_u32_draw i) })
  let next_step_cells : List Cell :=
    List.replicate (HEIGHT * WIDTH) Cell.dead_cell
  { cells := cells, next_step_cells := next_step_cells }

/-! ### Rendering -/

/-- The color chosen by `draw_cell` for one cell: white `[0xff; 4]` when
alive, transparent black `[0; 4]` when dead. -/
def color_of (c : Cell) : List Nat :=
  if c.is_alive then [0xff, 0xff, 0xff, 0xff] else [0, 0, 0, 0]

/-- The frame after `for (cell, pixel) in self.cells.iter().zip(frame.chunks_exact_mut(4))`:
as long as a cell and a complete 4-byte chunk remain, the chunk is
overwritten with the cell's color; the zip stops when either side runs
out, leaving the rest of the frame (including a trailing chunk shorter
than 4 bytes) unchanged. -/
def draw_frame : List Cell → List Nat → List Nat
  | cell :: cells, _ :: _ :: _ :: _ :: rest => color_of cell ++ draw_frame cells rest
  | _, frame => frame

/-- Rust `Grid::draw_cell(&mut self, frame: &mut [u8])`: the method only
reads `self.cells` and writes the frame, so it is modelled as returning
the (unchanged) grid together with the written frame. -/
def Grid.draw_cell (g : Grid) (frame : List Nat) : Grid × List Nat :=
  (g, draw_frame g.cells frame)

/-! ### The generation update -/

/-- The Rust cast `as usize` applied to a (sign-extended) `i32` value:
Euclidean remainder modulo `2 ^ 64`. -/
def castUsize (i : Int) : Nat := (i % 2 ^ 64).toNat

/-- One neighbour lookup
`self.cells.get(j as usize).unwrap_or(&Cell::dead_cell())`. -/
def get_or_dead (cells : List Cell) (j : Int) : Cell :=
  (cells[castUsize j]?).getD Cell.dead_cell

/-- The array `neighbours_cell: [bool; 8]` built in `update_cells` for the
cell with flat index `id`, from top-left to bottom-right, by flat-index
arithmetic only. -/
def neighbours_cell (cells : List Cell) (id : Int) : List Bool :=
  [(get_or_dead cells (id - WIDTH - 1)).is_alive,
   (get_or_dead cells (id - WIDTH)).is_alive,
   (get_or_dead cells (id - WIDTH + 1)).is_alive,
   (get_or_dead cells (id - 1)).is_alive,
   (get_or_dead cells (id + 1)).is_alive,
   (get_or_dead cells (id + WIDTH - 1)).is_alive,
   (get_or_dead cells (id + WIDTH)).is_alive,
   (get_or_dead cells (id + WIDTH + 1)).is_alive]

/-- The cell written to `next_step_cells[id]` in one loop iteration:
`self.cells[id].process_next_state(neighbours_cell)`.  The read
`self.cells[id]` is a panicking index; under the length invariant `id` is
in bounds (proved below), so the `getD` default is never taken. -/
def next_cell (cells : List Cell) (id : Nat) : Cell :=
  ((cells[id]?).getD Cell.dead_cell).process_next_state
    (neighbours_cell cells (id : Int))

/-- The double loop of `update_cells`: `for x in 0..WIDTH { for y in
0..HEIGHT { next_step_cells[x + y*WIDTH] = next_state } }`, reading only
from `cells` and writing only into the scratch buffer.  The Rust store
`self.next_step_cells[id] = next_state` panics out of bounds; `List.set`
is a no-op there, and under the length invariant every store is in bounds
(proved below). -/
def update_loop (cells next0 : List Cell) : List Cell :=
  (List.range WIDTH).foldl
    (fun acc x =>
      (List.range HEIGHT).foldl
        (fun acc2 y => acc2.set (x + y * WIDTH) (next_cell cells (x + y * WIDTH)))
        acc)
    next0

/-- Rust `Grid::update_cells(&mut self)`: run the double loop into the
scratch buffer, then `std::mem::swap(&mut self.next_step_cells, &mut
self.cells)`. -/
def Grid.update_cells (g : Grid) : Grid :=
  let written := update_loop g.cells g.next_step_cells
  { cells := written, next_step_cells := g.cells }

/-- The length invariant of the spec:
`current.length == next.length == width*height`. -/
def GridInv (g : Grid) : Prop :=
  g.cells.length = WIDTH * HEIGHT ∧ g.next_step_cells.length = WIDTH * HEIGHT

/-! ### Characterizing the update loop

The double loop of `update_cells` performs one `List.set` per flat index.
We reify the sequence of writes as a list of (index, value) pairs and show
that each index of `[0, WIDTH*HEIGHT)` is written with `next_cell cells`
of that index. -/

/-- Apply a sequence of (index, value) stores to a buffer, left to right. -/
def apply_writes (ws : List (Nat × Cell)) (buf : List Cell) : List Cell :=
  ws.foldl (fun b p => b.set p.1 p.2) buf

lemma apply_writes_cons (p : Nat × Cell) (ws : List (Nat × Cell)) (buf : List Cell) :
    apply_writes (p :: ws) buf = apply_writes ws (buf.set p.1 p.2) := rfl

lemma apply_writes_append (ws1 ws2 : List (Nat × Cell)) (buf : List Cell) :
    apply_writes (ws1 ++ ws2) buf = apply_writes ws2 (apply_writes ws1 buf) :=
  List.foldl_append _ _ _ _

lemma apply_writes_length (ws : List (Nat × Cell)) (buf : List Cell) :
    (apply_writes ws buf).length = buf.length := by
  induction ws generalizing buf with
  | nil => rfl
  | cons p tl ih => rw [apply_writes_cons, ih, List.length_set]

lemma apply_writes_getElem?_of_not_mem (ws : List (Nat × Cell)) (buf : List Cell)
    (i : Nat) (h : ∀ p ∈ ws, p.1 ≠ i) :
    (apply_writes ws buf)[i]? = buf[i]? := by
  induction ws generalizing buf with
  | nil => rfl
  | cons p tl ih =>
    rw [apply_writes_cons, ih _ (fun q hq => h q (List.mem_cons_of_mem _ hq))]
    exact List.getElem?_set_ne (h p (List.mem_cons_self _ _))

lemma apply_writes_getElem? (f : Nat → Cell) (ws : List (Nat × Cell)) (buf : List Cell)
    (i : Nat) (hall : ∀ p ∈ ws, p.2 = f p.1) (hmem : (i, f i) ∈ ws)
    (hlen : i < buf.length) :
    (apply_writes ws buf)[i]? = some (f i) := by
  induction ws generalizing buf with
  | nil => cases hmem
  | cons p tl ih =>
    rw [apply_writes_cons]
    by_cases hcase : ∃ q ∈ tl, q.1 = i
    · obtain ⟨q, hq, hq1⟩ := hcase
      have hq2 : q = (i, f i) := by
        have hv := hall q (List.mem_cons_of_mem _ hq)
        obtain ⟨q1, q2⟩ := q
        simp only at hq1
        subst hq1
        simp only at hv
        rw [hv]
      exact ih _ (fun r hr => hall r (List.mem_cons_of_mem _ hr))
        (by rw [← hq2]; exact hq) (by rw [List.length_set]; exact hlen)
    · push_neg at hcase
      rw [apply_writes_getElem?_of_not_mem tl _ i hcase]
      rcases List.mem_cons.mp hmem with heq | hmem2
      · rw [← heq]
        exact List.getElem?_set_self hlen
      · exact absurd rfl (hcase _ hmem2)

/-- The writes performed by the double loop, outer `x`, inner `y`, each at
flat index `x + y * WIDTH` with the freshly computed cell. -/
def write_list (cells : List Cell) : List (Nat × Cell) :=
  (List.range WIDTH).flatMap (fun x =>
    (List.range HEIGHT).map (fun y =>
      (x + y * WIDTH, next_cell cells (x + y * WIDTH))))

lemma apply_writes_flatMap (g : Nat → List (Nat × Cell)) (l : List Nat)
    (buf : List Cell) :
    apply_writes (l.flatMap g) buf = l.foldl (fun acc x => apply_writes (g x) acc) buf := by
  induction l generalizing buf with
  | nil => rfl
  | cons x xs ih =>
    rw [List.flatMap_cons, apply_writes_append, ih, List.foldl_cons]

lemma foldl_fun_congr {α β : Type} (f g : β → α → β) (h : ∀ b a, f b a = g b a)
    (l : List α) (b : β) : l.foldl f b = l.foldl g b := by
  induction l generalizing b with
  | nil => rfl
  | cons a tl ih => rw [List.foldl_cons, List.foldl_cons, h, ih]

lemma update_loop_eq_apply_writes (cells next0 : List Cell) :
    update_loop cells next0 = apply_writes (write_list cells) next0 := by
  rw [write_list, apply_writes_flatMap]
  unfold update_loop
  exact foldl_fun_congr _ _
    (fun acc x => by simp only [apply_writes, List.foldl_map]) _ _

lemma write_list_val (cells : List Cell) :
    ∀ p ∈ write_list cells, p.2 = next_cell cells p.1 := by
  intro p hp
  rw [write_list, List.mem_flatMap] at hp
  obtain ⟨x, _, hp2⟩ := hp
  rw [List.mem_map] at hp2
  obtain ⟨y, _, rfl⟩ := hp2
  rfl

lemma write_list_mem (cells : List Cell) (i : Nat) (hi : i < WIDTH * HEIGHT) :
    (i, next_cell cells i) ∈ write_list cells := by
  rw [write_list, List.mem_flatMap]
  refine ⟨i % WIDTH, List.mem_range.mpr (Nat.mod_lt _ (by decide)), ?_⟩
  rw [List.mem_map]
  refine ⟨i / WIDTH, List.mem_range.mpr ?_, ?_⟩
  · have hW : WIDTH = 500 := rfl
    have hH : HEIGHT = 300 := rfl
    rw [hH]
    rw [hW] at hi ⊢
    omega
  · have hx : i % WIDTH + i / WIDTH * WIDTH = i := Nat.mod_add_div' i WIDTH
    rw [hx]

lemma update_loop_length (cells next0 : List Cell) :
    (update_loop cells next0).length = next0.length := by
  rw [update_loop_eq_apply_writes, apply_writes_length]

lemma update_loop_getElem? (cells next0 : List Cell) (i : Nat)
    (hi : i < WIDTH * HEIGHT) (hlen : i < next0.length) :
    (update_loop cells next0)[i]? = some (next_cell cells i) := by
  rw [update_loop_eq_apply_writes]
  exact apply_writes_getElem? (next_cell cells) _ _ i
    (write_list_val cells) (write_list_mem cells i hi) hlen

/-! ### Bounds behaviour of the neighbour lookups -/

lemma castUsize_nonneg_small (j : Int) (h0 : 0 ≤ j) (h1 : j < 2 ^ 64) :
    castUsize j = j.toNat := by
  unfold castUsize
  omega

lemma castUsize_neg_large (j : Int) (h0 : -(2 ^ 63) ≤ j) (h1 : j < 0) :
    2 ^ 63 ≤ castUsize j := by
  unfold castUsize
  omega

/-- A lookup whose (sign-extended) flat index is negative or at least the
buffer length hits `None` and is resolved to the dead cell. -/
lemma get_or_dead_oob (cells : List Cell) (j : Int)
    (hlen : cells.length ≤ 2 ^ 63)
    (h0 : -(2 ^ 63) ≤ j) (h1 : j < 2 ^ 64)
    (hout : j < 0 ∨ (cells.length : Int) ≤ j) :
    get_or_dead cells j = Cell.dead_cell := by
  have hge : cells.length ≤ castUsize j := by
    unfold castUsize
    omega
  unfold get_or_dead
  rw [List.getElem?_eq_none hge]
  rfl

/-- A lookup whose flat index is within bounds returns that very cell. -/
lemma get_or_dead_in (cells : List Cell) (j : Int)
    (h0 : 0 ≤ j) (h1 : j < 2 ^ 64) :
    get_or_dead cells j = (cells[j.toNat]?).getD Cell.dead_cell := by
  unfold get_or_dead
  rw [castUsize_nonneg_small j h0 h1]

/-! ### Behaviour of the renderer -/

lemma color_of_length (c : Cell) : (color_of c).length = 4 := by
  unfold color_of
  by_cases h : c.is_alive <;> simp [h]

/-- Full characterization of `draw_frame`: the result has the frame's
length; the first `min cells.length (frame.length / 4)` 4-byte chunks
are overwritten, chunk `i` with the color of cell `i`; everything past
those chunks is left unchanged. -/
lemma draw_frame_spec (cells : List Cell) (frame : List Nat) :
    (draw_frame cells frame).length = frame.length ∧
    (∀ i, i < min cells.length (frame.length / 4) →
      ((draw_frame cells frame).drop (4 * i)).take 4 =
        color_of ((cells[i]?).getD Cell.dead_cell)) ∧
    (draw_frame cells frame).drop (4 * min cells.length (frame.length / 4)) =
      frame.drop (4 * min cells.length (frame.length / 4)) := by
  induction cells generalizing frame with
  | nil =>
    refine ⟨rfl, fun i hi => absurd hi (by simp), by simp [draw_frame]⟩
  | cons c cs ih =>
    match frame with
    | [] => exact ⟨rfl, fun i hi => absurd hi (by simp), by simp [draw_frame]⟩
    | [b0] => exact ⟨rfl, fun i hi => absurd hi (by simp), by simp [draw_frame]⟩
    | [b0, b1] => exact ⟨rfl, fun i hi => absurd hi (by simp), by simp [draw_frame]⟩
    | [b0, b1, b2] => exact ⟨rfl, fun i hi => absurd hi (by simp), by simp [draw_frame]⟩
    | b0 :: b1 :: b2 :: b3 :: rest =>
      obtain ⟨ih1, ih2, ih3⟩ := ih rest
      have hlen4 : (b0 :: b1 :: b2 :: b3 :: rest).length / 4 = rest.length / 4 + 1 := by
        simp only [List.length_cons]
        omega
      have hmin : min (c :: cs).length ((b0 :: b1 :: b2 :: b3 :: rest).length / 4)
          = min cs.length (rest.length / 4) + 1 := by
        rw [hlen4, List.length_cons]
        exact Nat.succ_min_succ _ _
      have heq : draw_frame (c :: cs) (b0 :: b1 :: b2 :: b3 :: rest)
          = color_of c ++ draw_frame cs rest := rfl
      refine ⟨?_, ?_, ?_⟩
      · rw [heq, List.length_append, color_of_length, ih1]
        simp only [List.length_cons]
        omega
      · intro i hi
        match i with
        | 0 =>
          rw [heq]
          simp only [Nat.mul_zero, List.drop_zero]
          have h4 : (4 : Nat) = (color_of c).length := (color_of_length c).symm
          rw [h4, List.take_left]
          simp
        | j + 1 =>
          rw [hmin] at hi
          have hj : j < min cs.length (rest.length / 4) := by omega
          have harith : 4 * (j + 1) = (color_of c).length + 4 * j := by
            rw [color_of_length]
            ring
          rw [heq, harith, List.drop_append]
          have hcs := ih2 j hj
          rw [hcs]
          simp
      · rw [heq, hmin]
        have harith : 4 * (min cs.length (rest.length / 4) + 1)
            = (color_of c).length + 4 * min cs.length (rest.length / 4) := by
          rw [color_of_length]
          ring
        rw [harith, List.drop_append]
        have harith2 : (color_of c).length + 4 * min cs.length (rest.length / 4)
            = 4 * min cs.length (rest.length / 4) + 1 + 1 + 1 + 1 := by
          rw [color_of_length]
          ring
        rw [harith2]
        simp only [List.drop_succ_cons]
        exact ih3

/-! ### The rule function as a predicate on the live-neighbour count -/

lemma filter_length_eq_count (nb : List Bool) :
    (nb.filter (fun b => b)).length = nb.count true := by
  rw [← List.countP_eq_length_filter, List.count_eq_countP]
  congr 1
  funext b
  cases b <;> rfl

lemma process_next_state_is_alive (c : Cell) (nb : List Bool) :
    (c.process_next_state nb).is_alive = true ↔
      (c.is_alive = true ∧ (nb.count true = 2 ∨ nb.count true = 3)) ∨
      (c.is_alive = false ∧ nb.count true = 3) := by
  unfold Cell.process_next_state
  rw [← filter_length_eq_count]
  cases h : c.is_alive <;> (simp; try omega)

/-! ### Properties of the initialization -/

lemma pcg_core_state64_lt (state inc : Nat) : pcg_core_state64 state inc < 2 ^ 64 :=
  Nat.mod_lt _ (by norm_num)

lemma rng_states_state_lt (i : Nat) : (rng_states i).state < 2 ^ 64 := by
  cases i with
  | zero => exact pcg_core_state64_lt _ _
  | succ n => exact pcg_core_state64_lt _ _

lemma f32_half_open_right_nonneg (u : Nat) : 0 ≤ f32_half_open_right u := by
  unfold f32_half_open_right
  positivity

lemma f32_half_open_right_lt_one (u : Nat) (h : u < 2 ^ 32) :
    f32_half_open_right u < 1 := by
  unfold f32_half_open_right
  rw [div_lt_one (by positivity)]
  have hshift : u >>> 9 < 2 ^ 23 := by
    rw [Nat.shiftRight_eq_div_pow]
    omega
  exact_mod_cast hshift

lemma alive_draw_iff (u : Nat) :
    alive_draw u = true ↔ f32_half_open_right u > 9 / 10 := by
  simp [alive_draw]

/-- The alive test holds iff the 23-bit mantissa `u >> 9` is at least
7549748 — the same threshold as the `f32` comparison with the rounded
literal `0.9_f32 = 15099494 / 2 ^ 24`. -/
lemma alive_draw_threshold (u : Nat) :
    alive_draw u = true ↔ 7549748 ≤ u >>> 9 := by
  rw [alive_draw_iff, gt_iff_lt]
  unfold f32_half_open_right
  rw [div_lt_div_iff₀ (by norm_num) (by norm_num)]
  constructor
  · intro h
    have h2 : (9 * 2 ^ 23 : Nat) < (u >>> 9) * 10 := by exact_mod_cast h
    omega
  · intro h
    have h2 : (9 * 2 ^ 23 : Nat) < (u >>> 9) * 10 := by omega
    exact_mod_cast h2

lemma get_randomized_grid_cells :
    Grid.get_randomized_grid.cells =
      (List.range (HEIGHT * WIDTH)).map
        (fun i => { is_alive := alive_draw (next_u32_draw i) }) := by
  simp only [Grid.get_randomized_grid]

lemma get_randomized_grid_next :
    Grid.get_randomized_grid.next_step_cells =
      List.replicate (HEIGHT * WIDTH) Cell.dead_cell := by
  simp only [Grid.get_randomized_grid]

lemma get_randomized_grid_cells_getElem? (i : Nat) (hi : i < HEIGHT * WIDTH) :
    Grid.get_randomized_grid.cells[i]? =
      some { is_alive := alive_draw (next_u32_draw i) } := by
  rw [get_randomized_grid_cells, List.getElem?_map, List.getElem?_range hi]
  rfl

/-! ### Concrete inputs used below -/

/-- The all-dead well-formed 500 × 300 grid. -/
def dead_grid : Grid :=
  { cells := List.replicate (WIDTH * HEIGHT) Cell.dead_cell,
    next_step_cells := List.replicate (WIDTH * HEIGHT) Cell.dead_cell }

lemma dead_grid_inv : GridInv dead_grid := by
  constructor <;> simp [dead_grid]

/-- The all-alive (current buffer) well-formed 500 × 300 grid. -/
def all_alive_grid : Grid :=
  { cells := List.replicate (WIDTH * HEIGHT) { is_alive := true },
    next_step_cells := List.replicate (WIDTH * HEIGHT) Cell.dead_cell }

/-- A frame buffer of exactly `WIDTH * HEIGHT * 4` zero bytes. -/
def full_frame : List Nat := List.replicate (WIDTH * HEIGHT * 4) 0

/-- The 500 × 300 cell buffer that is all dead except the cell at row 0,
column 0 (flat index 0) and the cell at row 0, column WIDTH-1 (flat index
WIDTH-1 = 499). -/
def c1_cells : List Cell :=
  ((List.replicate (WIDTH * HEIGHT) Cell.dead_cell).set 0 { is_alive := true }).set
    (WIDTH - 1) { is_alive := true }

lemma c1_cells_length : c1_cells.length = WIDTH * HEIGHT := by
  simp [c1_cells]

lemma c1_cells_getElem?_dead (k : Nat) (h0 : k ≠ 0) (h1 : k ≠ WIDTH - 1)
    (h2 : k < WIDTH * HEIGHT) :
    c1_cells[k]? = some Cell.dead_cell := by
  unfold c1_cells
  rw [List.getElem?_set_ne (Ne.symm h1), List.getElem?_set_ne (Ne.symm h0),
    List.getElem?_replicate]
  simp [h2]

lemma c1_cells_getElem?_right : c1_cells[WIDTH - 1]? = some { is_alive := true } := by
  unfold c1_cells
  rw [List.getElem?_set_self]
  rw [List.length_set, List.length_replicate]
  decide

lemma c1_cells_getElem?_left : c1_cells[0]? = some { is_alive := true } := by
  unfold c1_cells
  rw [List.getElem?_set_ne (by decide), List.getElem?_set_self]
  rw [List.length_replicate]
  decide

/-- The neighbour array built by `update_cells` for flat index 0 (the
cell at row 0, column 0): the sixth entry is the lookup at flat index
`0 + WIDTH - 1 = 499`, which is the live cell at row 0, column WIDTH-1. -/
lemma c1_neighbours :
    neighbours_cell c1_cells 0 = [false, false, false, false, false, true, false, false] := by
  have hlen : c1_cells.length = WIDTH * HEIGHT := c1_cells_length
  have hlen63 : c1_cells.length ≤ 2 ^ 63 := by
    rw [hlen]
    decide
  have hoob : ∀ j : Int, -(2 ^ 63) ≤ j → j < 0 →
      (get_or_dead c1_cells j).is_alive = false := by
    intro j hj1 hj2
    rw [get_or_dead_oob c1_cells j hlen63 hj1 (by omega) (Or.inl hj2)]
    rfl
  have hin : ∀ j : Int, 0 ≤ j → j < 2 ^ 64 → ∀ k : Nat, j.toNat = k →
      k ≠ 0 → k ≠ WIDTH - 1 → k < WIDTH * HEIGHT →
      (get_or_dead c1_cells j).is_alive = false := by
    intro j hj1 hj2 k hk h0 h1 h2
    rw [get_or_dead_in c1_cells j hj1 hj2, hk, c1_cells_getElem?_dead k h0 h1 h2]
    rfl
  have hright : (get_or_dead c1_cells (0 + (WIDTH : Int) - 1)).is_alive = true := by
    rw [get_or_dead_in c1_cells _ (by decide) (by decide)]
    have htn : ((0 + (WIDTH : Int) - 1)).toNat = WIDTH - 1 := by decide
    rw [htn, c1_cells_getElem?_right]
    rfl
  unfold neighbours_cell
  rw [hoob _ (by decide) (by decide), hoob _ (by decide) (by decide),
    hoob _ (by decide) (by decide), hoob _ (by decide) (by decide),
    hin _ (by decide) (by decide) 1 (by decide) (by decide) (by decide) (by decide),
    hright,
    hin _ (by decide) (by decide) 500 (by decide) (by decide) (by decide) (by decide),
    hin _ (by decide) (by decide) 501 (by decide) (by decide) (by decide) (by decide)]

/-! ## The claims -/

/-- C1: the claim states that during an update every neighbour lookup
outside `[0,width) × [0,height)` is treated as dead and the grid does not
wrap, so a cell at column 0 never counts the cell at column `WIDTH - 1`
of the same row among its 8 neighbours.  The code violates this: for the
grid `c1_cells`, all dead except the live cells at row 0 column 0 (flat
index 0) and row 0 column `WIDTH - 1` (flat index 499), the neighbour
array `update_cells` builds for the live cell at row 0 column 0 contains
`true` — its sixth entry is the flat-index lookup `id + WIDTH - 1 = 499`,
which lands on the live cell at column `WIDTH - 1` of the SAME row.  The
code's own neighbour count for this cell is 1 although all 8 of its true
neighbours are dead. -/
theorem c1_flat_index_wraps_same_row :
    c1_cells = ((List.replicate (WIDTH * HEIGHT) Cell.dead_cell).set 0
        { is_alive := true }).set (WIDTH - 1) { is_alive := true } ∧
    c1_cells[0]? = some { is_alive := true } ∧
    c1_cells[WIDTH - 1]? = some { is_alive := true } ∧
    neighbours_cell c1_cells 0 = [false, false, false, false, false, true, false, false] ∧
    (neighbours_cell c1_cells 0).count true = 1 :=
  ⟨rfl, c1_cells_getElem?_left, c1_cells_getElem?_right, c1_neighbours,
    by rw [c1_neighbours]; decide⟩

/-- C2: the rule function follows B3/S23 — a live cell survives iff its
live-neighbour count is 2 or 3, a dead cell becomes alive iff the count
is exactly 3 — and the cells written by an update are computed entirely
from the pre-update buffer `g.cells` (the scratch buffer never feeds the
computation). -/
theorem c2_rule_b3s23 :
    (∀ (c : Cell) (nb : List Bool), nb.length = 8 →
      ((c.process_next_state nb).is_alive = true ↔
        (c.is_alive = true ∧ (nb.count true = 2 ∨ nb.count true = 3)) ∨
        (c.is_alive = false ∧ nb.count true = 3))) ∧
    (∀ g : Grid, GridInv g → ∀ i, i < WIDTH * HEIGHT →
      g.update_cells.cells[i]? =
        some (((g.cells[i]?).getD Cell.dead_cell).process_next_state
          (neighbours_cell g.cells (i : Int)))) := by
  constructor
  · intro c nb _
    exact process_next_state_is_alive c nb
  · intro g hg i hi
    simp only [Grid.update_cells]
    rw [update_loop_getElem? _ _ i hi (by rw [hg.2]; exact hi)]
    rfl

/-- C2 witness: the rule theorem applied to a live cell with two live
neighbours, and the update characterization applied to the all-dead grid
at index 0. -/
theorem c2_rule_b3s23_witness :
    (([true, true, false, false, false, false, false, false] : List Bool).length = 8 ∧
      (({ is_alive := true } : Cell).process_next_state
          [true, true, false, false, false, false, false, false]).is_alive = true) ∧
    (GridInv dead_grid ∧ 0 < WIDTH * HEIGHT ∧
      dead_grid.update_cells.cells[0]? =
        some (((dead_grid.cells[0]?).getD Cell.dead_cell).process_next_state
          (neighbours_cell dead_grid.cells (0 : Int)))) :=
  ⟨⟨by decide,
    (c2_rule_b3s23.1 { is_alive := true }
        [true, true, false, false, false, false, false, false] (by decide)).mpr
      (Or.inl ⟨rfl, Or.inl (by decide)⟩)⟩,
   dead_grid_inv, by decide,
   c2_rule_b3s23.2 dead_grid dead_grid_inv 0 (by decide)⟩

/-- C3 counterexample: the claim states that a render call with a buffer
shorter than `WIDTH * HEIGHT * 4` bytes is rejected with a "buffer too
small" error and performs no partial write.  The code has no error path
at all (`draw_cell` returns nothing), and on the all-alive grid with a
4-byte buffer it DOES write: the first cell's white color is written over
the four bytes while the remaining 149999 cells are silently dropped —
a partial write with no rejection. -/
theorem c3_short_buffer_written_not_rejected :
    ([0, 0, 0, 0] : List Nat).length < WIDTH * HEIGHT * 4 ∧
    (all_alive_grid.draw_cell [0, 0, 0, 0]).2 = [0xff, 0xff, 0xff, 0xff] ∧
    (all_alive_grid.draw_cell [0, 0, 0, 0]).2 ≠ [0, 0, 0, 0] ∧
    1 < all_alive_grid.cells.length :=
  ⟨by decide, by rfl, by decide, by simp [all_alive_grid]; decide⟩

/-- C3 amended: a render call given an output buffer shorter than
`WIDTH * HEIGHT * 4` bytes is NOT rejected — there is no error signal —
and it silently truncates: it overwrites exactly the first
`frame.length / 4` complete 4-byte chunks, chunk `i` with the color of
cell `i`, leaves every byte from position `4 * (frame.length / 4)` on
unchanged, and leaves the grid unchanged. -/
theorem c3_amended_silent_truncation (g : Grid) (frame : List Nat)
    (hg : g.cells.length = WIDTH * HEIGHT)
    (hframe : frame.length < WIDTH * HEIGHT * 4) :
    ((g.draw_cell frame).2).length = frame.length ∧
    (∀ i, i < frame.length / 4 →
      (((g.draw_cell frame).2).drop (4 * i)).take 4 =
        color_of ((g.cells[i]?).getD Cell.dead_cell)) ∧
    ((g.draw_cell frame).2).drop (4 * (frame.length / 4)) =
      frame.drop (4 * (frame.length / 4)) ∧
    (g.draw_cell frame).1 = g := by
  obtain ⟨h1, h2, h3⟩ := draw_frame_spec g.cells frame
  have hmin : min g.cells.length (frame.length / 4) = frame.length / 4 := by
    have hlt : frame.length / 4 < WIDTH * HEIGHT := by
      have hW : WIDTH = 500 := rfl
      have hH : HEIGHT = 300 := rfl
      rw [hW, hH] at hframe ⊢
      omega
    rw [hg]
    omega
  rw [hmin] at h2 h3
  exact ⟨h1, h2, h3, rfl⟩

/-- C3 amended witness: the amended theorem applied to the all-alive grid
and the 4-byte zero frame. -/
theorem c3_amended_silent_truncation_witness :
    (all_alive_grid.cells.length = WIDTH * HEIGHT ∧
      ([0, 0, 0, 0] : List Nat).length < WIDTH * HEIGHT * 4) ∧
    (all_alive_grid.draw_cell [0, 0, 0, 0]).2.drop
        (4 * (([0, 0, 0, 0] : List Nat).length / 4)) =
      ([0, 0, 0, 0] : List Nat).drop (4 * (([0, 0, 0, 0] : List Nat).length / 4)) :=
  ⟨⟨by simp [all_alive_grid], by decide⟩,
   (c3_amended_silent_truncation all_alive_grid [0, 0, 0, 0]
      (by simp [all_alive_grid]) (by decide)).2.2.1⟩

/-- C4: grid construction is deterministic — any two grids produced by
the (argument-free, fixed seed `(1, 1)`, fixed 500 × 300) randomized
constructor have identical alive flags at every cell index. -/
theorem c4_randomized_grid_deterministic (g1 g2 : Grid)
    (h1 : g1 = Grid.get_randomized_grid) (h2 : g2 = Grid.get_randomized_grid) :
    ∀ i : Nat, (g1.cells[i]?).map Cell.is_alive = (g2.cells[i]?).map Cell.is_alive := by
  subst h1
  subst h2
  intro i
  rfl

/-- C4 witness: the determinism theorem applied to two (syntactically
identical) constructor calls, at cell index 0. -/
theorem c4_randomized_grid_deterministic_witness :
    (Grid.get_randomized_grid = Grid.get_randomized_grid ∧
      Grid.get_randomized_grid = Grid.get_randomized_grid) ∧
    (Grid.get_randomized_grid.cells[0]?).map Cell.is_alive =
      (Grid.get_randomized_grid.cells[0]?).map Cell.is_alive :=
  ⟨⟨rfl, rfl⟩,
   c4_randomized_grid_deterministic Grid.get_randomized_grid Grid.get_randomized_grid
     rfl rfl 0⟩

/-- C5: initialization draws exactly one pseudo-random `u32` per cell
index (cell `i` consumes the `i`-th draw of the stream, in row-major flat
order), the generator is the 64-bit-state PCG32 stream advanced once per
draw, the drawn value is mapped to the uniform rational
`(u >> 9) / 2 ^ 23 ∈ [0, 1)`, the cell is alive iff that value exceeds
`1 - p = 9/10` (equivalently `u >> 9 ≥ 7549748`), and the scratch buffer
is initialized to all-dead cells. -/
theorem c5_randomized_init :
    Grid.get_randomized_grid.cells.length = HEIGHT * WIDTH ∧
    (∀ i, i < HEIGHT * WIDTH →
      Grid.get_randomized_grid.cells[i]? =
        some { is_alive := alive_draw (next_u32_draw i) }) ∧
    (∀ i, rng_states (i + 1) = ((rng_states i).next_u32_pair).2 ∧
      (rng_states i).state < 2 ^ 64) ∧
    (∀ u : Nat, 0 ≤ f32_half_open_right u) ∧
    (∀ u : Nat, u < 2 ^ 32 → f32_half_open_right u < 1) ∧
    (∀ u : Nat, alive_draw u = true ↔ f32_half_open_right u > 9 / 10) ∧
    (∀ u : Nat, alive_draw u = true ↔ 7549748 ≤ u >>> 9) ∧
    Grid.get_randomized_grid.next_step_cells =
      List.replicate (HEIGHT * WIDTH) Cell.dead_cell ∧
    (∀ c ∈ Grid.get_randomized_grid.next_step_cells, c.is_alive = false) := by
  refine ⟨?_, get_randomized_grid_cells_getElem?, fun i => ⟨rfl, rng_states_state_lt i⟩,
    f32_half_open_right_nonneg, f32_half_open_right_lt_one, alive_draw_iff,
    alive_draw_threshold, get_randomized_grid_next, ?_⟩
  · rw [get_randomized_grid_cells]
    simp
  · intro c hc
    rw [get_randomized_grid_next] at hc
    rw [List.eq_of_mem_replicate hc]
    rfl

/-- C5 witness: the per-cell characterization applied at cell index 0. -/
theorem c5_randomized_init_witness :
    0 < HEIGHT * WIDTH ∧
    Grid.get_randomized_grid.cells[0]? =
      some { is_alive := alive_draw (next_u32_draw 0) } :=
  ⟨by decide, c5_randomized_init.2.1 0 (by decide)⟩

/-- C6: after an update call the current buffer holds exactly the newly
computed generation — the cell at every flat index `i < WIDTH * HEIGHT`
is `next_cell` of the pre-update buffer at `i`, and the buffer keeps
length `WIDTH * HEIGHT` — and the scratch buffer holds exactly the cell
values that were the current generation before the call (the swap moves
the old list unchanged); the grid has no further state. -/
theorem c6_buffer_swap (g : Grid) (h : GridInv g) :
    g.update_cells.next_step_cells = g.cells ∧
    g.update_cells.cells.length = WIDTH * HEIGHT ∧
    (∀ i, i < WIDTH * HEIGHT →
      g.update_cells.cells[i]? = some (next_cell g.cells i)) := by
  refine ⟨rfl, ?_, ?_⟩
  · simp only [Grid.update_cells]
    rw [update_loop_length, h.2]
  · intro i hi
    simp only [Grid.update_cells]
    exact update_loop_getElem? _ _ i hi (by rw [h.2]; exact hi)

/-- C6 witness: the swap theorem applied to the all-dead grid. -/
theorem c6_buffer_swap_witness :
    GridInv dead_grid ∧
    dead_grid.update_cells.next_step_cells = dead_grid.cells :=
  ⟨dead_grid_inv, (c6_buffer_swap dead_grid dead_grid_inv).1⟩

/-- C7: the length invariant `current.length = next.length = WIDTH * HEIGHT`
is established by the randomized constructor and preserved by every
update call and every render call. -/
theorem c7_length_invariant :
    GridInv Grid.get_randomized_grid ∧
    (∀ g : Grid, GridInv g → GridInv g.update_cells) ∧
    (∀ (g : Grid) (frame : List Nat), GridInv g → GridInv (g.draw_cell frame).1) := by
  refine ⟨⟨?_, ?_⟩, ?_, ?_⟩
  · rw [get_randomized_grid_cells, List.length_map, List.length_range]
    exact Nat.mul_comm HEIGHT WIDTH
  · rw [get_randomized_grid_next, List.length_replicate]
    exact Nat.mul_comm HEIGHT WIDTH
  · intro g hg
    constructor
    · simp only [Grid.update_cells]
      rw [update_loop_length]
      exact hg.2
    · simp only [Grid.update_cells]
      exact hg.1
  · intro g frame hg
    exact hg

/-- C7 witness: the invariant established by construction, then preserved
across one update of the all-dead grid. -/
theorem c7_length_invariant_witness :
    GridInv dead_grid ∧ GridInv dead_grid.update_cells :=
  ⟨dead_grid_inv, c7_length_invariant.2.1 dead_grid dead_grid_inv⟩

/-- C8: under the length invariant the update never fails — the two
panicking buffer accesses (`cells[id]` and the store
`next_step_cells[id] = ...`) are in bounds for every loop index, and
every neighbour lookup whose flat-index arithmetic leaves
`[0, WIDTH * HEIGHT)` — negative (sign-extended by the `as usize` cast to
an address at least `2 ^ 63`) or past the buffer end — returns `None` and
is resolved to the dead-cell default instead of panicking. -/
theorem c8_update_total (g : Grid) (h : GridInv g) :
    (∀ x y, x < WIDTH → y < HEIGHT →
      x + y * WIDTH < g.cells.length ∧ x + y * WIDTH < g.next_step_cells.length) ∧
    (∀ j : Int, -(2 ^ 63) ≤ j → j < 2 ^ 64 →
      (j < 0 ∨ ((WIDTH * HEIGHT : Nat) : Int) ≤ j) →
      get_or_dead g.cells j = Cell.dead_cell) := by
  obtain ⟨h1, h2⟩ := h
  have hW : WIDTH = 500 := rfl
  have hH : HEIGHT = 300 := rfl
  constructor
  · intro x y hx hy
    rw [h1, h2, hW, hH]
    rw [hW] at hx
    rw [hH] at hy
    omega
  · intro j hj1 hj2 hj3
    refine get_or_dead_oob g.cells j ?_ hj1 hj2 ?_
    · rw [h1, hW, hH]
      decide
    · rw [h1]
      exact hj3

/-- C8 witness: the bounds theorem applied to the all-dead grid, at the
corner loop index `(0, 0)` and at the negative neighbour index `-501`
(the top-left lookup of flat index 0). -/
theorem c8_update_total_witness :
    (GridInv dead_grid ∧ 0 < WIDTH ∧ 0 < HEIGHT ∧
      (-501 : Int) < 0 ∧ -(2 ^ 63) ≤ (-501 : Int) ∧ (-501 : Int) < 2 ^ 64) ∧
    (0 + 0 * WIDTH < dead_grid.cells.length ∧
      0 + 0 * WIDTH < dead_grid.next_step_cells.length) ∧
    get_or_dead dead_grid.cells (-501) = Cell.dead_cell :=
  ⟨⟨dead_grid_inv, by decide, by decide, by decide, by decide, by decide⟩,
   (c8_update_total dead_grid dead_grid_inv).1 0 0 (by decide) (by decide),
   (c8_update_total dead_grid dead_grid_inv).2 (-501) (by decide) (by decide)
     (Or.inl (by decide))⟩

/-- C9: a render call on a frame of exactly `WIDTH * HEIGHT` 4-byte slots
writes one color per cell in the same row-major order as the cell list:
the 4-byte slice at slot `i` becomes `[0xff, 0xff, 0xff, 0xff]` (white)
when cell `i` is alive and `[0, 0, 0, 0]` (transparent black) when it is
dead, and the frame keeps its length. -/
theorem c9_render_rowmajor (g : Grid) (frame : List Nat) (i : Nat) (c : Cell)
    (hg : g.cells.length = WIDTH * HEIGHT)
    (hframe : frame.length = WIDTH * HEIGHT * 4)
    (hc : g.cells[i]? = some c) :
    ((((g.draw_cell frame).2).drop (4 * i)).take 4 =
      if c.is_alive then [0xff, 0xff, 0xff, 0xff] else [0, 0, 0, 0]) ∧
    ((g.draw_cell frame).2).length = frame.length := by
  obtain ⟨h1, h2, _⟩ := draw_frame_spec g.cells frame
  refine ⟨?_, h1⟩
  have hi : i < g.cells.length := by
    by_contra hcon
    push_neg at hcon
    rw [List.getElem?_eq_none hcon] at hc
    cases hc
  have hmin : min g.cells.length (frame.length / 4) = g.cells.length := by
    rw [hg, hframe]
    omega
  have hslice := h2 i (by rw [hmin]; exact hi)
  rw [hc] at hslice
  simp only [Option.getD_some] at hslice
  rw [show (g.draw_cell frame).2 = draw_frame g.cells frame from rfl, hslice]
  rfl

/-- C9 witness: the row-major render theorem applied to the all-alive
grid, the exact-size zero frame, and cell index 0. -/
theorem c9_render_rowmajor_witness :
    (all_alive_grid.cells.length = WIDTH * HEIGHT ∧
      full_frame.length = WIDTH * HEIGHT * 4 ∧
      all_alive_grid.cells[0]? = some { is_alive := true }) ∧
    (((all_alive_grid.draw_cell full_frame).2).drop (4 * 0)).take 4 =
      if ({ is_alive := true } : Cell).is_alive then [0xff, 0xff, 0xff, 0xff]
      else [0, 0, 0, 0] :=
  ⟨⟨by simp [all_alive_grid], by simp [full_frame],
    by simp [all_alive_grid, List.getElem?_replicate]; decide⟩,
   (c9_render_rowmajor all_alive_grid full_frame 0 { is_alive := true }
      (by simp [all_alive_grid]) (by simp [full_frame])
      (by simp [all_alive_grid, List.getElem?_replicate]; decide)).1⟩

/-- C10: a render call leaves the grid unchanged — both the current cell
buffer and the scratch buffer after `draw_cell` are identical to their
values before the call (the method only reads `self.cells`). -/
theorem c10_render_preserves_grid (g : Grid) (frame : List Nat) :
    (g.draw_cell frame).1.cells = g.cells ∧
    (g.draw_cell frame).1.next_step_cells = g.next_step_cells :=
  ⟨rfl, rfl⟩
